import Mathlib

/-!
Shallow embedding of the obsolete-block tracking subsystem of WiredTiger's
page reconciliation path (src/btree/rec_track.c, 2008-2011 era).

A page's modification context carries a growable list of `WT_PAGE_TRACK`
entries.  We model the list of live entries (indices `0 ..< track_next`) as a
Lean `List`; the chunked capacity growth (`track_entries`, `+20` slots) only
affects allocation and is modelled as always succeeding.  The C `ref` field is
a `const void *` compared only for identity; we model pointer identity as
`Option Nat`, with `none` for `NULL`.  The block manager's
`__wt_block_free(session, addr, size)` is modelled by a caller-supplied oracle
`freeOk : Nat -> Nat -> Bool` saying whether a given invocation succeeds, and
resolution additionally returns the list of `(addr, size)` pairs the free
routine was invoked on, in order.
-/

/-- The `__wt_pt_type_t` enumeration: `WT_PT_EMPTY`, `WT_PT_BLOCK`,
`WT_PT_OVFL`, `WT_PT_OVFL_DISCARD`. -/
inductive WtPtType where
  | empty
  | block
  | ovfl
  | ovflDiscard
deriving DecidableEq, Repr

/-- A `WT_PAGE_TRACK` entry: kind, reference identity (`NULL` = `none`),
block address and size. -/
structure WtPageTrack where
  type : WtPtType
  ref : Option Nat
  addr : Nat
  size : Nat
deriving DecidableEq, Repr

/-- The constant `WT_ADDR_INVALID` is `UINT32_MAX`. -/
def WT_ADDR_INVALID : Nat := 2 ^ 32 - 1

/-- The entry state written by `__wt_rec_discard_track` after a successful
free: `type = WT_PT_EMPTY`, `ref = NULL`, `addr = WT_ADDR_INVALID`,
`size = 0`. -/
def emptyTrack : WtPageTrack :=
  { type := .empty, ref := none, addr := WT_ADDR_INVALID, size := 0 }

/-- Model of `__wt_rec_track`: add an addr/size pair to the page's list of tracked
objects.  The C function scans entries `0 ..< track_next` for an entry whose
`(type, ref, addr, size)` all match and returns 0 without change if one is
found; otherwise it appends the new entry at `track_next` (growing the array
by 20 slots when full; allocation is modelled as succeeding, so the function
is total here and always "returns 0"). -/
def wt_rec_track (l : List WtPageTrack) (type : WtPtType) (ref : Option Nat)
    (addr size : Nat) : List WtPageTrack :=
  if ({ type := type, ref := ref, addr := addr, size := size } : WtPageTrack) ∈ l then
    l
  else
    l ++ [{ type := type, ref := ref, addr := addr, size := size }]

/-- Result of `__wt_rec_track_ovfl_active`: the C function returns `1` with
`*addrp`/`*sizep` filled in on a match, `0` otherwise; `WT_ASSERT` firing on a
matched entry that is not `WT_PT_OVFL_DISCARD` is the fatal case. -/
inductive OvflActiveResult where
  | fatal
  | found (addr size : Nat)
  | notFound
deriving DecidableEq, Repr

/-- The scan loop of `__wt_rec_track_ovfl_active`: entries whose `ref` differs
from `orig_data` are skipped (`continue`); the first entry whose `ref` matches
is checked by `WT_ASSERT(session, track->type == WT_PT_OVFL_DISCARD)` (fatal
when violated, before any mutation), then flipped to `WT_PT_OVFL` and its
addr/size returned. -/
def ovflActiveScan (d : Nat) : List WtPageTrack → OvflActiveResult × List WtPageTrack
  | [] => (.notFound, [])
  | t :: rest =>
    if t.ref ≠ some d then
      let p := ovflActiveScan d rest
      (p.1, t :: p.2)
    else if t.type = .ovflDiscard then
      (.found t.addr t.size, { t with type := .ovfl } :: rest)
    else
      (.fatal, t :: rest)

/-- Model of `__wt_rec_track_ovfl_active`: search for an overflow record and reactivate
it.  A `NULL` `orig_data` returns `0` immediately (overflow keys are not
tracked); otherwise the list is scanned as in `ovflActiveScan`. -/
def wt_rec_track_ovfl_active (origData : Option Nat) (l : List WtPageTrack) :
    OvflActiveResult × List WtPageTrack :=
  match origData with
  | none => (.notFound, l)
  | some d => ovflActiveScan d l

/-- Model of `__wt_rec_track_ovfl_reset`: mark all `WT_PT_OVFL` entries
`WT_PT_OVFL_DISCARD`; every other entry is left alone. -/
def wt_rec_track_ovfl_reset : List WtPageTrack → List WtPageTrack
  | [] => []
  | t :: rest =>
    (if t.type = .ovfl then { t with type := .ovflDiscard } else t) ::
      wt_rec_track_ovfl_reset rest

/-- Is an entry physically freed by `__wt_rec_discard_track`?  The C switch
frees `WT_PT_BLOCK` and `WT_PT_OVFL_DISCARD` entries and `continue`s over
`WT_PT_EMPTY` and `WT_PT_OVFL`. -/
def eligible (t : WtPageTrack) : Bool :=
  t.type = .block ∨ t.type = .ovflDiscard

/-- The `(addr, size)` pair passed to `__wt_block_free` for an entry. -/
def pairOf (t : WtPageTrack) : Nat × Nat := (t.addr, t.size)

/-- Model of `__wt_rec_discard_track`: resolve the page's list of tracked objects.
Returns `(ok, entries, calls)`: `ok = true` models returning 0, `ok = false`
models `WT_RET` propagating a `__wt_block_free` failure; `entries` is the
entry list after the call; `calls` lists the `(addr, size)` pairs
`__wt_block_free` was invoked on, in order (including a failing invocation).
A freed entry is reset to `emptyTrack`; on a free failure the function
returns at once, leaving the failing entry and everything after it
untouched. -/
def wt_rec_discard_track (freeOk : Nat → Nat → Bool) :
    List WtPageTrack → Bool × List WtPageTrack × List (Nat × Nat)
  | [] => (true, [], [])
  | t :: rest =>
    if eligible t then
      if freeOk t.addr t.size then
        let p := wt_rec_discard_track freeOk rest
        (p.1, emptyTrack :: p.2.1, pairOf t :: p.2.2)
      else
        (false, t :: rest, [pairOf t])
    else
      let p := wt_rec_discard_track freeOk rest
      (p.1, t :: p.2.1, p.2.2)

/-- Per-entry effect of a fully successful resolve pass: freed kinds reset to
`emptyTrack`, `WT_PT_EMPTY` and `WT_PT_OVFL` untouched. -/
def resolveEntry (t : WtPageTrack) : WtPageTrack :=
  if eligible t then emptyTrack else t

/-- Registering the same `(type, ref, addr, size)` tuple `n` times in a
row via `__wt_rec_track`. -/
def trackSame (type : WtPtType) (ref : Option Nat) (addr size : Nat) :
    Nat → List WtPageTrack → List WtPageTrack
  | 0, l => l
  | n + 1, l => wt_rec_track (trackSame type ref addr size n l) type ref addr size

/-- Folding a sequence of `__wt_rec_track_ovfl_active` calls (keeping only the
list state). -/
def reactList (ds : List (Option Nat)) (l : List WtPageTrack) : List WtPageTrack :=
  ds.foldl (fun s d => (wt_rec_track_ovfl_active d s).2) l

/-- Spec invariant I1: no two entries of the list share an identical
`(kind, reference, addr, size)` tuple.  Tuple equality is exactly entry
equality. -/
def I1 (l : List WtPageTrack) : Prop := l.Pairwise (· ≠ ·)

instance (l : List WtPageTrack) : Decidable (I1 l) := by
  unfold I1; infer_instance

/-- An entry left behind by a successful resolve pass is never freed again:
its kind is `WT_PT_EMPTY` or `WT_PT_OVFL`. -/
theorem eligible_resolveEntry (t : WtPageTrack) : eligible (resolveEntry t) = false := by
  by_cases h : t.type = .block ∨ t.type = .ovflDiscard
  · simp [resolveEntry, eligible, h, emptyTrack]
  · simp [resolveEntry, eligible, h]

/-- Per-entry resolution is idempotent. -/
theorem resolveEntry_resolveEntry (t : WtPageTrack) :
    resolveEntry (resolveEntry t) = resolveEntry t := by
  by_cases h : t.type = .block ∨ t.type = .ovflDiscard
  · simp [resolveEntry, eligible, h, emptyTrack]
  · simp [resolveEntry, eligible, h]

/-- A resolved list contains no entry still eligible for freeing. -/
theorem filter_eligible_map_resolveEntry (l : List WtPageTrack) :
    (l.map resolveEntry).filter eligible = [] := by
  induction l with
  | nil => rfl
  | cons t rest ih => simp [List.filter, eligible_resolveEntry, ih]

/-- When every free succeeds, `__wt_rec_discard_track` returns 0, maps each
entry through `resolveEntry`, and invokes `__wt_block_free` exactly once per
eligible entry, in list order. -/
theorem discard_track_all_ok (g : Nat → Nat → Bool) (l : List WtPageTrack)
    (hg : ∀ a s, g a s = true) :
    wt_rec_discard_track g l =
      (true, l.map resolveEntry, (l.filter eligible).map pairOf) := by
  induction l with
  | nil => rfl
  | cons t rest ih =>
    unfold wt_rec_discard_track
    by_cases h : eligible t = true
    · simp [h, hg t.addr t.size, ih, resolveEntry, List.filter]
    · simp [h, ih, resolveEntry, List.filter]

/-- When every eligible entry before `t` frees successfully and the free of
`t` fails, `__wt_rec_discard_track` stops at `t`: it reports the failure,
the prefix is resolved, `t` and the suffix are untouched, and the free
routine was invoked once per eligible prefix entry plus the one failing
invocation on `t`. -/
theorem discard_track_fail_split (g : Nat → Nat → Bool) (l₁ l₂ : List WtPageTrack)
    (t : WtPageTrack) (h₁ : ∀ u ∈ l₁, eligible u = true → g u.addr u.size = true)
    (ht : eligible t = true) (hf : g t.addr t.size = false) :
    wt_rec_discard_track g (l₁ ++ t :: l₂) =
      (false, l₁.map resolveEntry ++ t :: l₂,
        (l₁.filter eligible).map pairOf ++ [pairOf t]) := by
  induction l₁ with
  | nil =>
    unfold wt_rec_discard_track
    simp [ht, hf]
  | cons u rest ih =>
    have hrest : ∀ v ∈ rest, eligible v = true → g v.addr v.size = true :=
      fun v hv => h₁ v (List.mem_cons_of_mem u hv)
    have step := ih hrest
    unfold wt_rec_discard_track
    by_cases hu : eligible u = true
    · simp [hu, h₁ u (List.mem_cons_self u rest) hu, step, resolveEntry, List.filter]
    · simp [hu, step, resolveEntry, List.filter]

/-- If no entry of the list carries the searched reference, the scan of
`__wt_rec_track_ovfl_active` returns 0 and changes nothing. -/
theorem ovflActiveScan_not_found (d : Nat) (l : List WtPageTrack)
    (h : ∀ u ∈ l, u.ref ≠ some d) :
    ovflActiveScan d l = (.notFound, l) := by
  induction l with
  | nil => rfl
  | cons t rest ih =>
    have ht : t.ref ≠ some d := h t (List.mem_cons_self t rest)
    have step := ih fun u hu => h u (List.mem_cons_of_mem t hu)
    unfold ovflActiveScan
    simp [ht, step]

/-- The scan of `__wt_rec_track_ovfl_active` skips entries whose reference
differs and acts on the first entry whose reference matches: if its kind is
`WT_PT_OVFL_DISCARD` it is flipped to `WT_PT_OVFL` and its addr/size
returned, otherwise the assertion fires; in both cases the entries after the
first match are never reached. -/
theorem ovflActiveScan_split (d : Nat) (l₁ l₂ : List WtPageTrack) (t : WtPageTrack)
    (hskip : ∀ u ∈ l₁, u.ref ≠ some d) (hmatch : t.ref = some d) :
    ovflActiveScan d (l₁ ++ t :: l₂) =
      if t.type = .ovflDiscard then
        (.found t.addr t.size, l₁ ++ { t with type := .ovfl } :: l₂)
      else
        (.fatal, l₁ ++ t :: l₂) := by
  induction l₁ with
  | nil =>
    unfold ovflActiveScan
    by_cases h : t.type = .ovflDiscard
    · simp [hmatch, h]
    · simp [hmatch, h]
  | cons u rest ih =>
    have hu : u.ref ≠ some d := hskip u (List.mem_cons_self u rest)
    have step := ih fun v hv => hskip v (List.mem_cons_of_mem u hv)
    unfold ovflActiveScan
    by_cases h : t.type = .ovflDiscard
    · simp [hu, step, h]
    · simp [hu, step, h]

/-- The scan leaves every entry that is not `WT_PT_OVFL_DISCARD` in place:
position `i` still holds the same entry afterwards. -/
theorem ovflActiveScan_preserves (d : Nat) (l : List WtPageTrack) (i : Nat)
    (t : WtPageTrack) (hi : l[i]? = some t) (ht : t.type ≠ .ovflDiscard) :
    (ovflActiveScan d l).2[i]? = some t := by
  induction l generalizing i with
  | nil => simp at hi
  | cons u rest ih =>
    unfold ovflActiveScan
    by_cases hu : u.ref ≠ some d
    · simp only [hu, if_true, eq_self_iff_true]
      simp only [if_pos hu]
      cases i with
      | zero => simpa using hi
      | succ j =>
        have hj : rest[j]? = some t := by simpa using hi
        simpa using ih j hj
    · simp only [if_neg hu]
      by_cases hut : u.type = .ovflDiscard
      · simp only [if_pos hut]
        cases i with
        | zero =>
          have : u = t := by simpa using hi
          exact absurd (this ▸ hut) ht
        | succ j =>
          simpa using (by simpa using hi : rest[j]? = some t)
      · simp only [if_neg hut]
        simpa using hi

/-- Reactivation, for any `orig_data` argument, leaves every entry that is
not `WT_PT_OVFL_DISCARD` in place (a `NULL` argument touches nothing at
all). -/
theorem ovfl_active_preserves (od : Option Nat) (l : List WtPageTrack) (i : Nat)
    (t : WtPageTrack) (hi : l[i]? = some t) (ht : t.type ≠ .ovflDiscard) :
    (wt_rec_track_ovfl_active od l).2[i]? = some t := by
  cases od with
  | none => simpa [wt_rec_track_ovfl_active] using hi
  | some d => exact ovflActiveScan_preserves d l i t hi ht

/-- Any sequence of reactivation calls leaves every entry whose kind is not
`WT_PT_OVFL_DISCARD` in place, provided its kind can never become
`WT_PT_OVFL_DISCARD` meanwhile; in particular this holds of `WT_PT_BLOCK`
and `WT_PT_EMPTY` entries, which no reactivation modifies. -/
theorem reactList_preserves (ds : List (Option Nat)) (l : List WtPageTrack) (i : Nat)
    (t : WtPageTrack) (hi : l[i]? = some t) (ht : t.type ≠ .ovflDiscard) :
    (reactList ds l)[i]? = some t := by
  induction ds generalizing l with
  | nil => simpa [reactList] using hi
  | cons d ds ih =>
    have step := ovfl_active_preserves d l i t hi ht
    simpa [reactList] using ih (wt_rec_track_ovfl_active d l).2 step

/-- Registering a tuple already present leaves the list unchanged (the C
function returns 0 from the duplicate-check loop). -/
theorem wt_rec_track_mem (l : List WtPageTrack) (ty : WtPtType) (r : Option Nat)
    (a s : Nat) (h : ({ type := ty, ref := r, addr := a, size := s } : WtPageTrack) ∈ l) :
    wt_rec_track l ty r a s = l := by
  simp [wt_rec_track, h]

/-- One registration brings the number of entries equal to the registered
tuple to `max 1` of its previous value: a missing tuple is appended once, a
present tuple is deduplicated. -/
theorem count_wt_rec_track (l : List WtPageTrack) (ty : WtPtType) (r : Option Nat)
    (a s : Nat) :
    List.count ({ type := ty, ref := r, addr := a, size := s } : WtPageTrack)
        (wt_rec_track l ty r a s) =
      max 1 (List.count ({ type := ty, ref := r, addr := a, size := s } : WtPageTrack) l) := by
  by_cases h : ({ type := ty, ref := r, addr := a, size := s } : WtPageTrack) ∈ l
  · have hpos : 0 < List.count ({ type := ty, ref := r, addr := a, size := s } : WtPageTrack) l :=
      List.count_pos_iff.mpr h
    simp [wt_rec_track, h, Nat.max_eq_right hpos]
  · have hz : List.count ({ type := ty, ref := r, addr := a, size := s } : WtPageTrack) l = 0 :=
      List.count_eq_zero.mpr h
    simp [wt_rec_track, h, hz]

/-- Registering the same tuple `n + 1` times brings its count to `max 1` of
the starting count. -/
theorem count_trackSame (l : List WtPageTrack) (ty : WtPtType) (r : Option Nat)
    (a s : Nat) (n : Nat) :
    List.count ({ type := ty, ref := r, addr := a, size := s } : WtPageTrack)
        (trackSame ty r a s (n + 1) l) =
      max 1 (List.count ({ type := ty, ref := r, addr := a, size := s } : WtPageTrack) l) := by
  induction n with
  | zero => simpa [trackSame] using count_wt_rec_track l ty r a s
  | succ m ih =>
    have step := count_wt_rec_track (trackSame ty r a s (m + 1) l) ty r a s
    calc List.count ({ type := ty, ref := r, addr := a, size := s } : WtPageTrack)
          (trackSame ty r a s (m + 1 + 1) l)
        = max 1 (List.count ({ type := ty, ref := r, addr := a, size := s } : WtPageTrack)
            (trackSame ty r a s (m + 1) l)) := step
      _ = max 1 (max 1 (List.count
            ({ type := ty, ref := r, addr := a, size := s } : WtPageTrack) l)) := by rw [ih]
      _ = max 1 (List.count ({ type := ty, ref := r, addr := a, size := s } : WtPageTrack) l) := by
          omega

/-- Registration preserves invariant I1: the appended entry, when any is
appended, is distinct from every existing entry by the duplicate check. -/
theorem wt_rec_track_I1 (l : List WtPageTrack) (ty : WtPtType) (r : Option Nat)
    (a s : Nat) (h : I1 l) : I1 (wt_rec_track l ty r a s) := by
  by_cases hm : ({ type := ty, ref := r, addr := a, size := s } : WtPageTrack) ∈ l
  · simpa [wt_rec_track, hm] using h
  · unfold wt_rec_track I1
    rw [if_neg hm]
    rw [List.pairwise_append]
    refine ⟨h, by simp, ?_⟩
    intro x hx y hy
    simp only [List.mem_singleton] at hy
    subst hy
    intro hxy
    exact hm (hxy ▸ hx)

/-- C1: for every tracked-object list, `__wt_rec_discard_track` (with every
`__wt_block_free` invocation succeeding) processes each entry by kind: the
result is 0, the entry list is mapped through `resolveEntry`, and
`__wt_block_free` is invoked exactly on the `WT_PT_BLOCK` and
`WT_PT_OVFL_DISCARD` entries, in order; per kind, `WT_PT_EMPTY` entries are
skipped unchanged and not freed, `WT_PT_BLOCK` and `WT_PT_OVFL_DISCARD`
entries are freed and reset to `WT_PT_EMPTY` with a `NULL` reference,
`WT_ADDR_INVALID` address and zero size, and `WT_PT_OVFL` entries are
retained exactly as-is, neither freed nor reset. -/
theorem rec_discard_track_kinds (g : Nat → Nat → Bool) (l : List WtPageTrack)
    (hg : ∀ a s, g a s = true) :
    wt_rec_discard_track g l = (true, l.map resolveEntry, (l.filter eligible).map pairOf) ∧
    (∀ t : WtPageTrack, t.type = .empty → resolveEntry t = t ∧ eligible t = false) ∧
    (∀ t : WtPageTrack, t.type = .block → resolveEntry t = emptyTrack ∧ eligible t = true) ∧
    (∀ t : WtPageTrack, t.type = .ovflDiscard →
      resolveEntry t = emptyTrack ∧ eligible t = true) ∧
    (∀ t : WtPageTrack, t.type = .ovfl → resolveEntry t = t ∧ eligible t = false) := by
  refine ⟨discard_track_all_ok g l hg, ?_, ?_, ?_, ?_⟩ <;>
    (intro t ht; constructor <;> simp [resolveEntry, eligible, ht])

/-- Witness for C1 at a concrete input: one entry of each kind. -/
theorem rec_discard_track_kinds_witness :
    wt_rec_discard_track (fun _ _ => true)
        [{ type := .empty, ref := none, addr := 9, size := 9 },
         { type := .block, ref := none, addr := 1, size := 1 },
         { type := .ovflDiscard, ref := some 5, addr := 2, size := 2 },
         { type := .ovfl, ref := some 6, addr := 3, size := 3 }] =
      (true,
       [{ type := .empty, ref := none, addr := 9, size := 9 }, emptyTrack, emptyTrack,
        { type := .ovfl, ref := some 6, addr := 3, size := 3 }],
       [(1, 1), (2, 2)]) := by
  have h := (rec_discard_track_kinds (fun _ _ => true)
    [{ type := .empty, ref := none, addr := 9, size := 9 },
     { type := .block, ref := none, addr := 1, size := 1 },
     { type := .ovflDiscard, ref := some 5, addr := 2, size := 2 },
     { type := .ovfl, ref := some 6, addr := 3, size := 3 }] (fun _ _ => rfl)).1
  simpa [resolveEntry, eligible, pairOf, List.filter] using h

/-- C4: `__wt_rec_track_ovfl_reset` keeps the list length, turns every
`WT_PT_OVFL` entry into `WT_PT_OVFL_DISCARD` leaving its reference, address
and size untouched, and leaves every entry of any other kind unchanged in
all fields; it removes no entries (and its model has no free channel: the C
loop calls no block-manager function). -/
theorem rec_track_ovfl_reset_spec (l : List WtPageTrack) (i : Nat) :
    (wt_rec_track_ovfl_reset l).length = l.length ∧
    (wt_rec_track_ovfl_reset l)[i]? = (l[i]?).map
      (fun t => if t.type = .ovfl then { t with type := .ovflDiscard } else t) := by
  constructor
  · induction l with
    | nil => rfl
    | cons t rest ih => simp [wt_rec_track_ovfl_reset, ih]
  · induction l generalizing i with
    | nil => simp [wt_rec_track_ovfl_reset]
    | cons t rest ih =>
      cases i with
      | zero => simp [wt_rec_track_ovfl_reset]
      | succ j => simpa [wt_rec_track_ovfl_reset] using ih j

/-- C5: the reset/reactivate round trip on an `WT_PT_OVFL` entry for
reference `r` at address 100, size 10: after `__wt_rec_track_ovfl_reset` its
kind is `WT_PT_OVFL_DISCARD`; `__wt_rec_track_ovfl_active` for `r` then
returns 1 with `(100, 10)` and flips it back to `WT_PT_OVFL`; a subsequent
`__wt_rec_discard_track` (under any free oracle) leaves the entry untouched
and performs no `__wt_block_free` invocation at all, in particular none on
`(100, 10)`. -/
theorem ovfl_reset_reactivate_roundtrip (r : Nat) (g : Nat → Nat → Bool) :
    wt_rec_track_ovfl_reset [{ type := .ovfl, ref := some r, addr := 100, size := 10 }] =
      [{ type := .ovflDiscard, ref := some r, addr := 100, size := 10 }] ∧
    wt_rec_track_ovfl_active (some r)
        [{ type := .ovflDiscard, ref := some r, addr := 100, size := 10 }] =
      (.found 100 10, [{ type := .ovfl, ref := some r, addr := 100, size := 10 }]) ∧
    wt_rec_discard_track g [{ type := .ovfl, ref := some r, addr := 100, size := 10 }] =
      (true, [{ type := .ovfl, ref := some r, addr := 100, size := 10 }], []) := by
  refine ⟨rfl, ?_, ?_⟩
  · simp [wt_rec_track_ovfl_active, ovflActiveScan]
  · simp [wt_rec_discard_track, eligible]

/-- C9: `__wt_rec_track_ovfl_active` returns 0 and leaves the list unchanged
both when `orig_data` is `NULL` (overflow keys are not tracked) and when no
entry of the list has a reference identical to `orig_data`; in neither case
is any entry modified or an addr/size pair returned. -/
theorem ovfl_active_not_found_no_change (l : List WtPageTrack) (d : Nat) :
    wt_rec_track_ovfl_active none l = (.notFound, l) ∧
    ((∀ u ∈ l, u.ref ≠ some d) → wt_rec_track_ovfl_active (some d) l = (.notFound, l)) := by
  exact ⟨rfl, fun h => ovflActiveScan_not_found d l h⟩

/-- Witness for C9 at a concrete input: a `NULL` reference and an unmatched
reference on a one-entry list. -/
theorem ovfl_active_not_found_no_change_witness :
    wt_rec_track_ovfl_active none
        [{ type := .ovflDiscard, ref := some 5, addr := 1, size := 1 }] =
      (.notFound, [{ type := .ovflDiscard, ref := some 5, addr := 1, size := 1 }]) ∧
    wt_rec_track_ovfl_active (some 9)
        [{ type := .ovflDiscard, ref := some 5, addr := 1, size := 1 }] =
      (.notFound, [{ type := .ovflDiscard, ref := some 5, addr := 1, size := 1 }]) := by
  have h := ovfl_active_not_found_no_change
    [{ type := .ovflDiscard, ref := some 5, addr := 1, size := 1 }] 9
  exact ⟨h.1, h.2 (by decide)⟩

/-- C6: when the first entry matching `orig_data` by reference identity is
not in the `WT_PT_OVFL_DISCARD` state — in particular when it is already
`WT_PT_OVFL` — `__wt_rec_track_ovfl_active` hits
`WT_ASSERT(session, track->type == WT_PT_OVFL_DISCARD)`: the fatal
invariant-violation outcome, not a recoverable return, and no entry is
modified. -/
theorem ovfl_active_fatal_on_nondiscard (l : List WtPageTrack) (d : Nat)
    (t : WtPageTrack) (hfind : l.find? (fun u => u.ref == some d) = some t)
    (ht : t.type ≠ .ovflDiscard) :
    wt_rec_track_ovfl_active (some d) l = (.fatal, l) := by
  show ovflActiveScan d l = (.fatal, l)
  induction l with
  | nil => simp at hfind
  | cons u rest ih =>
    by_cases hu : (u.ref == some d) = true
    · rw [List.find?_cons] at hfind
      rw [hu] at hfind
      have hut : u = t := by simpa using hfind
      have hur : u.ref = some d := by simpa using hu
      subst hut
      unfold ovflActiveScan
      simp [hur, ht]
    · rw [List.find?_cons] at hfind
      rw [Bool.eq_false_iff.mpr hu] at hfind
      have hur : u.ref ≠ some d := by simpa using hu
      have step := ih hfind
      unfold ovflActiveScan
      simp [hur, step]

/-- Witness for C6 at a concrete input: the only entry for reference 5 is
already `WT_PT_OVFL`, and reactivating reference 5 is fatal. -/
theorem ovfl_active_fatal_on_nondiscard_witness :
    wt_rec_track_ovfl_active (some 5)
        [{ type := .ovfl, ref := some 5, addr := 100, size := 10 }] =
      (.fatal, [{ type := .ovfl, ref := some 5, addr := 100, size := 10 }]) :=
  ovfl_active_fatal_on_nondiscard
    [{ type := .ovfl, ref := some 5, addr := 100, size := 10 }] 5
    { type := .ovfl, ref := some 5, addr := 100, size := 10 } (by decide) (by decide)

/-- C10: `__wt_rec_track_ovfl_active` matches by reference identity alone
(the skipped prefix `l₁` is constrained only on its `ref` fields, never on
kind, address or size) and acts on the first matching entry in list order:
when that entry is `WT_PT_OVFL_DISCARD` it alone is flipped to `WT_PT_OVFL`
and its addr/size returned, and otherwise the assertion fires; either way
the suffix `l₂` after the first match — including any later entry carrying
the same reference — is neither examined against the invariant nor
modified. -/
theorem ovfl_active_first_match_by_ref (l₁ l₂ : List WtPageTrack) (t : WtPageTrack)
    (d : Nat) (hskip : ∀ u ∈ l₁, u.ref ≠ some d) (hmatch : t.ref = some d) :
    (t.type = .ovflDiscard →
      wt_rec_track_ovfl_active (some d) (l₁ ++ t :: l₂) =
        (.found t.addr t.size, l₁ ++ { t with type := .ovfl } :: l₂)) ∧
    (t.type ≠ .ovflDiscard →
      wt_rec_track_ovfl_active (some d) (l₁ ++ t :: l₂) = (.fatal, l₁ ++ t :: l₂)) := by
  have h := ovflActiveScan_split d l₁ l₂ t hskip hmatch
  constructor
  · intro hd
    show ovflActiveScan d (l₁ ++ t :: l₂) = _
    rw [h, if_pos hd]
  · intro hd
    show ovflActiveScan d (l₁ ++ t :: l₂) = _
    rw [h, if_neg hd]

/-- Witness for C10 at a concrete input: the prefix entry has a different
reference, the matched entry is flipped and returned, and a later entry with
the same reference — which would trip the assertion if it were examined —
stays untouched. -/
theorem ovfl_active_first_match_by_ref_witness :
    wt_rec_track_ovfl_active (some 5)
        [{ type := .block, ref := none, addr := 1, size := 1 },
         { type := .ovflDiscard, ref := some 5, addr := 100, size := 10 },
         { type := .ovfl, ref := some 5, addr := 200, size := 20 }] =
      (.found 100 10,
       [{ type := .block, ref := none, addr := 1, size := 1 },
        { type := .ovfl, ref := some 5, addr := 100, size := 10 },
        { type := .ovfl, ref := some 5, addr := 200, size := 20 }]) := by
  have h := (ovfl_active_first_match_by_ref
    [{ type := .block, ref := none, addr := 1, size := 1 }]
    [{ type := .ovfl, ref := some 5, addr := 200, size := 20 }]
    { type := .ovflDiscard, ref := some 5, addr := 100, size := 10 } 5
    (by decide) (by decide)).1 (by decide)
  simpa using h

/-- C8: a `WT_PT_BLOCK` entry is untouched by any sequence of
`__wt_rec_track_ovfl_active` calls made after its registration — reactivation
never converts it into a retained `WT_PT_OVFL` entry — and the very next
`__wt_rec_discard_track` (with frees succeeding) frees its addr/size and
resets it to `WT_PT_EMPTY`. -/
theorem block_entry_always_swept (ds : List (Option Nat)) (l : List WtPageTrack)
    (i : Nat) (t : WtPageTrack) (g : Nat → Nat → Bool)
    (hi : l[i]? = some t) (hb : t.type = .block) (hg : ∀ a s, g a s = true) :
    (reactList ds l)[i]? = some t ∧
    (wt_rec_discard_track g (reactList ds l)).2.1[i]? = some emptyTrack ∧
    (t.addr, t.size) ∈ (wt_rec_discard_track g (reactList ds l)).2.2 := by
  have ht : t.type ≠ .ovflDiscard := by simp [hb]
  have h1 := reactList_preserves ds l i t hi ht
  have h2 := discard_track_all_ok g (reactList ds l) hg
  refine ⟨h1, ?_, ?_⟩
  · rw [h2]
    show ((reactList ds l).map resolveEntry)[i]? = some emptyTrack
    rw [List.getElem?_map, h1]
    simp [resolveEntry, eligible, hb]
  · rw [h2]
    show (t.addr, t.size) ∈ ((reactList ds l).filter eligible).map pairOf
    have hmem : t ∈ reactList ds l := by
      have := List.getElem?_eq_some.mp h1
      obtain ⟨hlt, heq⟩ := this
      exact heq ▸ List.getElem_mem hlt
    have hmem2 : t ∈ (reactList ds l).filter eligible :=
      List.mem_filter.mpr ⟨hmem, by simp [eligible, hb]⟩
    simpa [pairOf] using List.mem_map_of_mem pairOf hmem2

/-- Witness for C8 at a concrete input: a reactivation that flips an
overflow entry in front of the block entry, then a fully successful
resolve. -/
theorem block_entry_always_swept_witness :
    (reactList [some 5]
        [{ type := .ovflDiscard, ref := some 5, addr := 7, size := 7 },
         { type := .block, ref := none, addr := 1, size := 1 }])[1]? =
      some { type := .block, ref := none, addr := 1, size := 1 } ∧
    (wt_rec_discard_track (fun _ _ => true)
        (reactList [some 5]
          [{ type := .ovflDiscard, ref := some 5, addr := 7, size := 7 },
           { type := .block, ref := none, addr := 1, size := 1 }])).2.1[1]? =
      some emptyTrack ∧
    (1, 1) ∈ (wt_rec_discard_track (fun _ _ => true)
        (reactList [some 5]
          [{ type := .ovflDiscard, ref := some 5, addr := 7, size := 7 },
           { type := .block, ref := none, addr := 1, size := 1 }])).2.2 :=
  block_entry_always_swept [some 5]
    [{ type := .ovflDiscard, ref := some 5, addr := 7, size := 7 },
     { type := .block, ref := none, addr := 1, size := 1 }] 1
    { type := .block, ref := none, addr := 1, size := 1 } (fun _ _ => true)
    (by decide) (by decide) (fun _ _ => rfl)

/-- A doubly resolved list is the same as a singly resolved one, entrywise. -/
theorem map_resolveEntry_map (l : List WtPageTrack) :
    (l.map resolveEntry).map resolveEntry = l.map resolveEntry := by
  induction l with
  | nil => rfl
  | cons t rest ih => simp [resolveEntry_resolveEntry, ih]

/-- Counterexample for C2: resolving five `WT_PT_BLOCK` entries with the free
of `(3, 3)` failing returns the error with the first two entries already
`WT_PT_EMPTY` and the last three untouched, and the retry attempts exactly
the remaining three; but across the call and its retry `__wt_block_free` is
invoked twice on the failing entry's `(3, 3)`, refuting "free is called at
most once per tracked entry across the call and its retries". -/
theorem rec_discard_partial_failure_cex :
    let l : List WtPageTrack :=
      [{ type := .block, ref := none, addr := 1, size := 1 },
       { type := .block, ref := none, addr := 2, size := 2 },
       { type := .block, ref := none, addr := 3, size := 3 },
       { type := .block, ref := none, addr := 4, size := 4 },
       { type := .block, ref := none, addr := 5, size := 5 }]
    let r1 := wt_rec_discard_track (fun a _ => a != 3) l
    let r2 := wt_rec_discard_track (fun _ _ => true) r1.2.1
    r1.1 = false ∧
    r1.2.1 = [emptyTrack, emptyTrack,
      { type := .block, ref := none, addr := 3, size := 3 },
      { type := .block, ref := none, addr := 4, size := 4 },
      { type := .block, ref := none, addr := 5, size := 5 }] ∧
    r1.2.2 = [(1, 1), (2, 2), (3, 3)] ∧
    r2.1 = true ∧
    r2.2.2 = [(3, 3), (4, 4), (5, 5)] ∧
    List.count ((3, 3) : Nat × Nat) (r1.2.2 ++ r2.2.2) = 2 ∧
    ¬ List.count ((3, 3) : Nat × Nat) (r1.2.2 ++ r2.2.2) ≤ 1 := by
  decide

/-- C2 as amended: if `__wt_block_free` fails on an entry, the call returns
the error immediately; every eligible entry before the failure is already
reset to `WT_PT_EMPTY` and was freed exactly once, and the failing entry and
everything after it retain their pre-resolve state.  A retry with frees
succeeding attempts exactly the remaining entries — every entry freed by the
first call is skipped, so no entry has its free succeed twice — but the
entry whose free failed has `__wt_block_free` invoked on it again, once per
call that reaches it. -/
theorem rec_discard_partial_failure (g g2 : Nat → Nat → Bool)
    (l₁ l₂ : List WtPageTrack) (t : WtPageTrack)
    (h₁ : ∀ u ∈ l₁, eligible u = true → g u.addr u.size = true)
    (ht : eligible t = true) (hf : g t.addr t.size = false)
    (hg2 : ∀ a s, g2 a s = true) :
    wt_rec_discard_track g (l₁ ++ t :: l₂) =
      (false, l₁.map resolveEntry ++ t :: l₂,
        (l₁.filter eligible).map pairOf ++ [pairOf t]) ∧
    wt_rec_discard_track g2 (l₁.map resolveEntry ++ t :: l₂) =
      (true, l₁.map resolveEntry ++ (t :: l₂).map resolveEntry,
        ((t :: l₂).filter eligible).map pairOf) := by
  refine ⟨discard_track_fail_split g l₁ l₂ t h₁ ht hf, ?_⟩
  have h := discard_track_all_ok g2 (l₁.map resolveEntry ++ t :: l₂) hg2
  rw [h, List.map_append, List.filter_append, map_resolveEntry_map,
    filter_eligible_map_resolveEntry]
  simp

/-- Witness for C2 (amended) at a concrete input: three`WT_PT_BLOCK`
entries, the middle free failing, then a fully successful retry. -/
theorem rec_discard_partial_failure_witness :
    wt_rec_discard_track (fun a _ => a != 3)
        [{ type := .block, ref := none, addr := 1, size := 1 },
         { type := .block, ref := none, addr := 3, size := 3 },
         { type := .block, ref := none, addr := 4, size := 4 }] =
      (false, [emptyTrack,
        { type := .block, ref := none, addr := 3, size := 3 },
        { type := .block, ref := none, addr := 4, size := 4 }],
       [(1, 1), (3, 3)]) ∧
    wt_rec_discard_track (fun _ _ => true)
        [emptyTrack,
         { type := .block, ref := none, addr := 3, size := 3 },
         { type := .block, ref := none, addr := 4, size := 4 }] =
      (true, [emptyTrack, emptyTrack, emptyTrack], [(3, 3), (4, 4)]) := by
  have h := rec_discard_partial_failure (fun a _ => a != 3) (fun _ _ => true)
    [{ type := .block, ref := none, addr := 1, size := 1 }]
    [{ type := .block, ref := none, addr := 4, size := 4 }]
    { type := .block, ref := none, addr := 3, size := 3 }
    (by decide) (by decide) (by decide) (fun _ _ => rfl)
  constructor
  · have h1 := h.1
    simpa [resolveEntry, eligible, pairOf, List.filter] using h1
  · have h2 := h.2
    simpa [resolveEntry, eligible, pairOf, List.filter] using h2

/-- Counterexample for C3: the claim quantifies over every list state, but a
list can legitimately hold two identical tuples — resolving two tracked
`WT_PT_BLOCK` entries resets both to the identical `WT_PT_EMPTY` tuple — and
then registering that tuple any number of times is deduplicated against the
existing entries and leaves two entries with the tuple, not exactly one. -/
theorem rec_track_dedup_cex :
    (wt_rec_discard_track (fun _ _ => true)
        (wt_rec_track (wt_rec_track [] .block none 1 1) .block none 2 2)).2.1 =
      [emptyTrack, emptyTrack] ∧
    trackSame .empty none WT_ADDR_INVALID 0 3 [emptyTrack, emptyTrack] =
      [emptyTrack, emptyTrack] ∧
    ¬ List.count emptyTrack
        (trackSame .empty none WT_ADDR_INVALID 0 3 [emptyTrack, emptyTrack]) = 1 := by
  decide

/-- C3 as amended: if an entry with the identical tuple is already present,
`__wt_rec_track` returns success and leaves the list completely unchanged;
registering the same tuple `n >= 1` times brings the number of entries with
that tuple to `max 1` of its starting value — so exactly one entry whenever
the list did not already hold duplicate copies of the tuple (as after any
sequence of registrations starting from an empty list), while pre-existing
duplicates are preserved, not merged. -/
theorem rec_track_dedup (ty : WtPtType) (r : Option Nat) (a s : Nat)
    (l : List WtPageTrack) :
    (({ type := ty, ref := r, addr := a, size := s } : WtPageTrack) ∈ l →
      wt_rec_track l ty r a s = l) ∧
    (∀ n, 1 ≤ n →
      List.count ({ type := ty, ref := r, addr := a, size := s } : WtPageTrack)
          (trackSame ty r a s n l) =
        max 1 (List.count ({ type := ty, ref := r, addr := a, size := s } : WtPageTrack) l)) ∧
    (List.count ({ type := ty, ref := r, addr := a, size := s } : WtPageTrack) l ≤ 1 →
      ∀ n, 1 ≤ n →
        List.count ({ type := ty, ref := r, addr := a, size := s } : WtPageTrack)
          (trackSame ty r a s n l) = 1) := by
  have hmax : ∀ n, 1 ≤ n →
      List.count ({ type := ty, ref := r, addr := a, size := s } : WtPageTrack)
          (trackSame ty r a s n l) =
        max 1 (List.count ({ type := ty, ref := r, addr := a, size := s } : WtPageTrack) l) := by
    intro n hn
    cases n with
    | zero => omega
    | succ m => exact count_trackSame l ty r a s m
  refine ⟨wt_rec_track_mem l ty r a s, hmax, ?_⟩
  intro hle n hn
  rw [hmax n hn]
  omega

/-- Witness for C3 (amended) at a concrete input: a present tuple is a
no-op, and two registrations of a fresh tuple on a singleton list leave
exactly one entry with it. -/
theorem rec_track_dedup_witness :
    wt_rec_track [{ type := .block, ref := none, addr := 1, size := 1 }] .block none 1 1 =
      [{ type := .block, ref := none, addr := 1, size := 1 }] ∧
    List.count ({ type := .block, ref := none, addr := 2, size := 2 } : WtPageTrack)
      (trackSame .block none 2 2 2
        [{ type := .block, ref := none, addr := 1, size := 1 }]) = 1 := by
  have h := rec_track_dedup .block none 1 1
    [{ type := .block, ref := none, addr := 1, size := 1 }]
  have h2 := rec_track_dedup .block none 2 2
    [{ type := .block, ref := none, addr := 1, size := 1 }]
  exact ⟨h.1 (by decide), h2.2.2 (by decide) 2 (by decide)⟩

/-- Counterexample for C7: invariant I1 is not preserved by every operation.
From the empty list, tracking two distinct `WT_PT_BLOCK` entries yields a
state satisfying I1, but resolving it resets both entries to the identical
`WT_PT_EMPTY` tuple, a reachable state with two equal
`(kind, reference, addr, size)` tuples. -/
theorem I1_not_invariant_cex :
    I1 ([] : List WtPageTrack) ∧
    I1 (wt_rec_track (wt_rec_track [] .block none 1 1) .block none 2 2) ∧
    ¬ I1 ((wt_rec_discard_track (fun _ _ => true)
        (wt_rec_track (wt_rec_track [] .block none 1 1) .block none 2 2)).2.1) := by
  decide

/-- C7 as amended: `__wt_rec_track` preserves I1 — its duplicate check never
appends a tuple already present — but I1 does not hold in every state
reachable by the four operations: `__wt_rec_discard_track` resets every
freed entry to the identical `WT_PT_EMPTY` tuple, so resolving a list with
two `WT_PT_BLOCK` entries leaves duplicate tuples. -/
theorem rec_track_preserves_I1 (l : List WtPageTrack) (ty : WtPtType)
    (r : Option Nat) (a s : Nat) (h : I1 l) : I1 (wt_rec_track l ty r a s) :=
  wt_rec_track_I1 l ty r a s h

/-- Witness for C7 (amended) at a concrete input. -/
theorem rec_track_preserves_I1_witness :
    I1 (wt_rec_track [{ type := .ovfl, ref := some 5, addr := 100, size := 10 }]
      .block none 1 1) :=
  rec_track_preserves_I1 [{ type := .ovfl, ref := some 5, addr := 100, size := 10 }]
    .block none 1 1 (by decide)
